import Mathlib

set_option maxRecDepth 8000

/- Shallow embedding of jni/lib/wprintJNI.c (BuiltInPrintService JNI layer).
   Page numbers and page counts are C ints, modelled as Int. The two fixed-size
   C token buffers (char num_begin_ary[5], char num_end_ary[5], memset to 0) are
   modelled as unbounded zero-initialized buffers together with the exact trace
   of indices written; the 4-digit cap of the real arrays is analysed on that
   write trace rather than baked into the model, because the C code itself never
   bounds the write index. -/

/-- NUL character: the terminator of C strings and the memset fill of the token buffers. -/
def nulChar : Char := Char.ofNat 0

/-- C isspace in the default locale: ' ' (32) or 0x09..0x0D. -/
def isSpaceC (c : Char) : Bool := c.toNat = 32 || (9 ≤ c.toNat && c.toNat ≤ 13)

/-- Decimal digit predicate of the C number grammars (isdigit). -/
def isDigitC (c : Char) : Bool := 48 ≤ c.toNat && c.toNat ≤ 57

/-- Hexadecimal digit predicate (strtod hexadecimal literals). -/
def isHexDigitC (c : Char) : Bool :=
  isDigitC c || (97 ≤ c.toNat && c.toNat ≤ 102) || (65 ≤ c.toNat && c.toNat ≤ 70)

/-- Character allowed inside the n-char-sequence of a strtod "nan(...)" literal. -/
def isNanSeqChar (c : Char) : Bool := c.isAlphanum || c = Char.ofNat 95

/-- Strip one optional leading sign, as strtod and atoi both do. -/
def stripSignOpt (l : List Char) : List Char :=
  match l with
  | [] => []
  | c :: r => if c = '+' ∨ c = '-' then r else c :: r

/-- Exponent-part digits: optional sign then at least one digit consuming the rest. -/
def expDigitsTail (l : List Char) : Bool :=
  let l2 := stripSignOpt l
  !(l2.takeWhile isDigitC).isEmpty && (l2.dropWhile isDigitC).isEmpty

/-- Optional decimal exponent part ("e"/"E" sign? digits+), consuming the rest. -/
def expTail (l : List Char) : Bool :=
  match l with
  | [] => true
  | c :: r => (c = 'e' || c = 'E') && expDigitsTail r

/-- Optional binary exponent part of a hexadecimal strtod literal ("p"/"P" sign? digits+). -/
def pExpTail (l : List Char) : Bool :=
  match l with
  | [] => true
  | c :: r => (c = 'p' || c = 'P') && expDigitsTail r

/-- Decimal strtod body after the optional sign: digits* [. digits*] with at least one
digit, then an optional exponent, consuming the whole input. -/
def decTail (l : List Char) : Bool :=
  let ip := l.takeWhile isDigitC
  let r1 := l.dropWhile isDigitC
  match r1 with
  | '.' :: r2 =>
      (!ip.isEmpty || !(r2.takeWhile isDigitC).isEmpty) && expTail (r2.dropWhile isDigitC)
  | _ => !ip.isEmpty && expTail r1

/-- Hexadecimal strtod body after "0x": hexdigits* [. hexdigits*] with at least one
hex digit, then an optional p-exponent, consuming the whole input. -/
def hexTail (l : List Char) : Bool :=
  let ip := l.takeWhile isHexDigitC
  let r1 := l.dropWhile isHexDigitC
  match r1 with
  | '.' :: r2 =>
      (!ip.isEmpty || !(r2.takeWhile isHexDigitC).isEmpty) && pExpTail (r2.dropWhile isHexDigitC)
  | _ => !ip.isEmpty && pExpTail r1

/-- Rest of a strtod "nan" literal: empty, or a parenthesized n-char-sequence. -/
def nanTail (l : List Char) : Bool :=
  match l with
  | [] => true
  | c :: r => c = '(' && (r.dropWhile isNanSeqChar = [')'] : Bool)

/-- strtod body after whitespace and sign: hexadecimal "0x..." or decimal. -/
def strtodBody (l : List Char) : Bool :=
  match l with
  | c0 :: c1 :: rest =>
      if c0 = '0' ∧ (c1 = 'x' ∨ c1 = 'X') then hexTail rest else decTail (c0 :: c1 :: rest)
  | _ => decTail l

/-- Does strtod consume the whole string (the `*p == '\0'` test of _isNumeric)?
C99 strtod: whitespace* sign? (decimal | hex | inf | infinity | nan). -/
def strtodFull (l : List Char) : Bool :=
  let l2 := stripSignOpt (l.dropWhile isSpaceC)
  let low := l2.map Char.toLower
  if low = ['i', 'n', 'f'] ∨ low = ['i', 'n', 'f', 'i', 'n', 'i', 't', 'y'] then true
  else if low.take 3 = ['n', 'a', 'n'] then nanTail (l2.drop 3)
  else strtodBody l2

/-- _isNumeric (wprintJNI.c:223): non-NULL, non-empty, first char not isspace,
and fully consumed by strtod. -/
def isNumeric (l : List Char) : Bool :=
  match l with
  | [] => false
  | c :: t => !isSpaceC c && strtodFull (c :: t)

/-- Digit-run accumulator of atoi (value of the leading digit run, base 10). -/
def atoiDigits (l : List Char) : Int :=
  (l.takeWhile isDigitC).foldl (fun a c => a * 10 + ((c.toNat : Int) - 48)) 0

/-- C atoi: skip whitespace, optional sign, then the leading run of digits
(0 when there is none). Arithmetic is mathematical Int; int overflow of the C
type is not reached by 4-digit-bounded tokens. -/
def atoi (l : List Char) : Int :=
  match l.dropWhile isSpaceC with
  | [] => 0
  | c :: t => if c = '+' then atoiDigits t else if c = '-' then -atoiDigits t else atoiDigits (c :: t)

/-- Write one character at index i of a zero-initialized unbounded buffer. -/
def bufWrite (b : List Char) (i : Nat) (c : Char) : List Char :=
  if i < b.length then b.set i c
  else b ++ List.replicate (i - b.length) nulChar ++ [c]

/-- Write a run of characters at consecutive indices starting at i. -/
def bufWriteSeq (b : List Char) (i : Nat) (cs : List Char) : List Char :=
  match cs with
  | [] => b
  | c :: t => bufWriteSeq (bufWrite b i c) (i + 1) t

/-- Scanner state of the token loop of _order_pdf_pages (wprintJNI.c:261-289):
the two token buffers, the shared write counter num_counter, the
dash_encountered flag, and the trace of buffer indices written. -/
structure ScanState where
  beginBuf : List Char
  endBuf : List Char
  counter : Nat
  dash : Bool
  writes : List Nat
deriving DecidableEq, Repr

/-- One iteration of the scan loop: skip spaces; a dash sets dash_encountered and
resets num_counter to 0; any other character is stored at num_counter (into
num_begin_ary before the first dash, num_end_ary after) and num_counter advances. -/
def scanChar (st : ScanState) (c : Char) : ScanState :=
  if isSpaceC c then st
  else if c = '-' then { st with dash := true, counter := 0 }
  else if st.dash then
    { st with endBuf := bufWrite st.endBuf st.counter c, counter := st.counter + 1,
              writes := st.writes ++ [st.counter] }
  else
    { st with beginBuf := bufWrite st.beginBuf st.counter c, counter := st.counter + 1,
              writes := st.writes ++ [st.counter] }

/-- Initial scanner state: both buffers memset to zero, counter 0, no dash seen. -/
def initScan : ScanState := ⟨[], [], 0, false, []⟩

/-- Scan a whole range segment. -/
def scanSegment (seg : List Char) : ScanState := seg.foldl scanChar initScan

/-- The begin token: num_begin_ary read as a C string (up to the first NUL). -/
def beginTokenOf (seg : List Char) : List Char :=
  (scanSegment seg).beginBuf.takeWhile (fun c => c != nulChar)

/-- The end token: num_end_ary read as a C string; when no dash was seen the code
stores '0' in its first cell, so the token is "0". -/
def endTokenOf (seg : List Char) : List Char :=
  if (scanSegment seg).dash then (scanSegment seg).endBuf.takeWhile (fun c => c != nulChar)
  else ['0']

/-- Pages appended by the ascending loop (wprintJNI.c:317-322): b, b+1, ..., e. -/
def intRangeAsc (b e : Int) : List Int :=
  (List.range (e + 1 - b).toNat).map (fun i : Nat => b + (i : Int))

/-- Pages appended by the descending loop (wprintJNI.c:329-334): b, b-1, ..., e. -/
def intRangeDesc (b e : Int) : List Int :=
  (List.range (b + 1 - e).toNat).map (fun i : Nat => b - (i : Int))

/-- Validation and append part of _order_pdf_pages (wprintJNI.c:308-335), after the
tokens were converted: bounds must be positive and at most num_pages; ascending
when end >= begin (clamping end to num_pages, redundantly), descending otherwise
(clamping begin). Returns the extended page list, or none on failure; all failure
exits happen before any page is stored. -/
def pageRangeAppend (num_pages : Int) (acc : List Int) (nb ne : Int) : Option (List Int) :=
  if 0 < nb ∧ 0 < ne then
    if nb ≤ num_pages ∧ ne ≤ num_pages then
      if nb ≤ ne then
        some (acc ++ intRangeAsc nb (if num_pages < ne then num_pages else ne))
      else
        some (acc ++ intRangeDesc (if num_pages < nb then num_pages else nb) ne)
    else none
  else none

/-- _order_pdf_pages (wprintJNI.c:258-350) on one comma-free segment: scan the two
tokens, require both numeric, convert with atoi, turn an end of 0 into the
single-page case end = begin, then validate and append. -/
def order_pdf_pages (num_pages : Int) (acc : List Int) (seg : List Char) : Option (List Int) :=
  if isNumeric (beginTokenOf seg) && isNumeric (endTokenOf seg) then
    pageRangeAppend num_pages acc (atoi (beginTokenOf seg))
      (if atoi (endTokenOf seg) = 0 then atoi (beginTokenOf seg) else atoi (endTokenOf seg))
  else none

/-- Comma splitter accumulator, modelling the strtok(page_range, ",") loop. -/
def splitCommaAux (l : List Char) (cur : List Char) : List (List Char) :=
  match l with
  | [] => [cur]
  | c :: t => if c = ',' then cur :: splitCommaAux t [] else splitCommaAux t (cur ++ [c])

/-- strtok on ',': comma-separated pieces with empty pieces dropped (strtok never
returns an empty token). -/
def strtokSplit (l : List Char) : List (List Char) :=
  (splitCommaAux l []).filter (fun t => !t.isEmpty)

/-- Decimal digit character (snprintf "%d"). -/
def digitChar (k : Nat) : Char := Char.ofNat (48 + k)

/-- Fuelled decimal printer of a natural number (most significant digit first). -/
def natDigitsAux (fuel n : Nat) : List Char :=
  match fuel with
  | 0 => []
  | f + 1 => if n < 10 then [digitChar n] else natDigitsAux f (n / 10) ++ [digitChar (n % 10)]

/-- Decimal digits of n, as produced by snprintf("%d", n) for n >= 0. -/
def natDecimal (n : Nat) : List Char := natDigitsAux (n + 1) n

/-- The fallback segment "1-N" that _get_pdf_page_range synthesizes with
snprintf(page_range, MAX_NUM_PAGES, "1-%d", num_pages). -/
def fallbackSeg (num_pages : Int) : List Char := '1' :: '-' :: natDecimal num_pages.toNat

/-- Segment loop of _get_pdf_page_range (wprintJNI.c:393-404): feed each strtok
token to _order_pdf_pages; on the first failure re-run _order_pdf_pages on the
fallback "1-N" — with the same pages_ary and num_index, i.e. appending to the
pages accumulated so far — and break. -/
def resolveSegs (num_pages : Int) (segs : List (List Char)) (acc : List Int) : List Int :=
  match segs with
  | [] => acc
  | s :: rest =>
    match order_pdf_pages num_pages acc s with
    | some acc2 => resolveSegs num_pages rest acc2
    | none =>
      match order_pdf_pages num_pages acc (fallbackSeg num_pages) with
      | some acc2 => acc2
      | none => acc

/-- Effective range expression: an absent or empty page_range field is replaced by
the synthesized "1-N" (wprintJNI.c:379-384); the empty string stands for both the
NULL and the "" cases, which the C code treats alike. -/
def effectiveList (num_pages : Int) (expr : String) : List Char :=
  if expr.data = [] then fallbackSeg num_pages else expr.data

/-- _get_pdf_page_range (wprintJNI.c:355-409): the resolved page list of one
document given its page count and its page-range expression. -/
def get_pdf_page_range (num_pages : Int) (expr : String) : List Int :=
  resolveSegs num_pages (strtokSplit (effectiveList num_pages expr)) []

/-- All-or-nothing parse of a list of segments (no fallback): some final list when
every segment parses, none otherwise. Used to state which prefix of segments
succeeded before a failure. -/
def parseAll (num_pages : Int) (segs : List (List Char)) (acc : List Int) : Option (List Int) :=
  match segs with
  | [] => some acc
  | s :: rest =>
    match order_pdf_pages num_pages acc s with
    | some acc2 => parseAll num_pages rest acc2
    | none => none

/-- One call to the page transmitter wprintPage, as issued by nativeStartJob and
_print_pdf_pages: the content reference (some page number, or none for the NULL
end-of-job call) and the last-page flag. -/
structure TxCall where
  content : Option Int
  lastPage : Bool
deriving DecidableEq, Repr

/-- Page loop of _print_pdf_pages (wprintJNI.c:424-448) over an already ordered
traversal: result starts as ERROR (so an empty list yields false), each page is
sent with last_page=false, and the loop breaks at the first non-OK result.
Returns the calls issued and whether the final result is OK. -/
def sendLoopCalls (tx : Int → Bool) (pages : List Int) : List TxCall × Bool :=
  match pages with
  | [] => ([], false)
  | p :: rest =>
    if tx p then
      match rest with
      | [] => ([TxCall.mk (some p) false], true)
      | q :: rest2 =>
        let r := sendLoopCalls tx (q :: rest2)
        (TxCall.mk (some p) false :: r.1, r.2)
    else ([TxCall.mk (some p) false], false)

/-- _print_pdf_pages: face-down trays print in the stored (forward) order, face-up
trays iterate the index from num_pages-1 down to 0, i.e. traverse the reversed
list. -/
def print_pdf_pages (faceDown : Bool) (tx : Int → Bool) (pages : List Int) :
    List TxCall × Bool :=
  if faceDown then sendLoopCalls tx pages else sendLoopCalls tx pages.reverse

/-- Document loop of nativeStartJob (wprintJNI.c:1963-1979) over documents already
arranged in submission order: result enters as OK, each document's pages are
sent by _print_pdf_pages, and the loop stops when a document's result is not OK. -/
def runDocs (faceDown : Bool) (tx : Int → Bool) (docs : List (List Int)) :
    List TxCall × Bool :=
  match docs with
  | [] => ([], true)
  | d :: rest =>
    let r := print_pdf_pages faceDown tx d
    if r.2 then
      let r2 := runDocs faceDown tx rest
      (r.1 ++ r2.1, r2.2)
    else (r.1, false)

/-- Full transmitted call sequence of one job (wprintJNI.c:1954-1981): face-down
starts at document index 0 stepping +1 (the given order), face-up starts at
index len-1 stepping -1 (the reversed order); after the loop a single
wprintPage(job, idx, NULL, true, ...) call is issued unconditionally. -/
def nativeJobCalls (faceDown : Bool) (tx : Int → Bool) (docs : List (List Int)) :
    List TxCall :=
  (runDocs faceDown tx (if faceDown then docs else docs.reverse)).1 ++ [TxCall.mk none true]

/-- Number of end-of-document marker calls (NULL content and last-page set) in a
call sequence. -/
def markerCount (calls : List TxCall) : Nat :=
  (calls.filter (fun c => c.content = none ∧ c.lastPage)).length

/-- Index/incrementor loop of the document iteration (wprintJNI.c:1954-1979):
the sequence of document indices visited, starting at start and stepping by inc. -/
def docOrderAux (start inc : Int) (count : Nat) : List Int :=
  match count with
  | 0 => []
  | k + 1 => start :: docOrderAux (start + inc) inc k

/-- Document submission order when every transmission succeeds: index 0 stepping +1
for face-down trays, index len-1 stepping -1 for face-up trays. -/
def documentOrder (faceDown : Bool) (len : Nat) : List Int :=
  if faceDown then docOrderAux 0 1 len else docOrderAux ((len : Int) - 1) (-1) len

/-- strcasecmp equality (ASCII case-insensitive), used for the "Photo" document
category test. -/
def strcaseEq (a b : String) : Bool :=
  a.data.map Char.toLower == b.data.map Char.toLower

/-- Scaling selection of nativeStartJob (wprintJNI.c:1889-1928). print_scaling
starts empty; PDF pass-through with (category "Photo" and shared photo) or
preserve-scaling picks "none" when supported; other PDF pass-through picks
"auto" when supported, else the printer default when non-empty, else "fit";
raster formats pick "none" when supported, else stay empty. -/
def selectPrintScaling (isPdfPassthrough : Bool) (docCategory : String)
    (sharedPhoto preserveScaling : Bool) (supported : List String)
    (defaultScaling : String) : String :=
  if isPdfPassthrough then
    if (strcaseEq docCategory "Photo" && sharedPhoto) || preserveScaling then
      if supported.contains "none" then "none" else ""
    else
      if supported.contains "auto" then "auto"
      else if defaultScaling ≠ "" then defaultScaling
      else "fit"
  else
    if supported.contains "none" then "none" else ""

/-- Smart-duplex rule of nativeStartJob (wprintJNI.c:1867-1877), with the duplex
values kept abstract (duplex_t lives in a header outside src): for a single
document, a non-PDF document forces duplex to DUPLEX_MODE_NONE, a PDF document
forces it to DUPLEX_MODE_NONE exactly when its resolved page count is 1, and
everything else keeps the configured mode. -/
def smartDuplexParams {α : Type} (numDocs : Nat) (isPdf : Bool) (resolvedCount : Int)
    (duplexNone configured : α) : α :=
  if numDocs = 1 then
    if isPdf then (if resolvedCount = 1 then duplexNone else configured) else duplexNone
  else configured

/-- Job states of the callback switch (wprintJNI.c:1530-1556). -/
inductive JobState where
  | queued
  | running
  | blocked
  | done
  | other
deriving DecidableEq, Repr

/-- Job-done outcomes of the callback switch (wprintJNI.c:1561-1594). -/
inductive JobDoneResult where
  | ok
  | error
  | cancelled
  | corrupt
  | badCertificate
  | other
deriving DecidableEq, Repr

/-- The two reason symbol tables: processBlockStatus vs processFailReasons. -/
inductive ReasonTable where
  | blocked
  | failed
deriving DecidableEq, Repr

/-- print_job_failed (wprintJNI.c:1559-1594): set only in the JOB_DONE state, by
the ERROR and CORRUPT outcome cases. -/
def printJobFailed (s : JobState) (r : JobDoneResult) : Bool :=
  match s with
  | JobState.done =>
    match r with
    | JobDoneResult.error => true
    | JobDoneResult.corrupt => true
    | _ => false
  | _ => false

/-- Reason-table selection (wprintJNI.c:1616-1622): the failed table when
print_job_failed, the blocked table otherwise. -/
def selectReasonTable (s : JobState) (r : JobDoneResult) : ReasonTable :=
  if printJobFailed s r then ReasonTable.failed else ReasonTable.blocked

/-- Reason-bound selection (wprintJNI.c:1600-1607): IPP_JOB_STATE_REASON_MAX_VALUE
when print_job_failed, PRINT_STATUS_MAX_STATE otherwise; the two header
constants are kept abstract. -/
def selectReasonBound (failedBound blockedBound : Nat) (s : JobState) (r : JobDoneResult) : Nat :=
  if printJobFailed s r then failedBound else blockedBound

lemma char_ne_of_toNat_ne {c d : Char} (h : c.toNat ≠ d.toNat) : c ≠ d :=
  fun hc => h (by rw [hc])

lemma isDigitC_toNat {c : Char} (h : isDigitC c = true) : 48 ≤ c.toNat ∧ c.toNat ≤ 57 := by
  simpa [isDigitC] using h

lemma isDigitC_not_space {c : Char} (h : isDigitC c = true) : isSpaceC c = false := by
  have hb := isDigitC_toNat h
  simp [isSpaceC]
  omega

lemma isDigitC_toLower {c : Char} (h : isDigitC c = true) : Char.toLower c = c := by
  have hb := isDigitC_toNat h
  unfold Char.toLower
  rw [if_neg]
  omega

lemma isDigitC_ne_plus {c : Char} (h : isDigitC c = true) : c ≠ '+' := by
  have hb := isDigitC_toNat h
  exact char_ne_of_toNat_ne (by intro hc; rw [show ('+').toNat = 43 from rfl] at hc; omega)

lemma isDigitC_ne_dash {c : Char} (h : isDigitC c = true) : c ≠ '-' := by
  have hb := isDigitC_toNat h
  exact char_ne_of_toNat_ne (by intro hc; rw [show ('-').toNat = 45 from rfl] at hc; omega)

lemma isDigitC_ne_x {c : Char} (h : isDigitC c = true) : c ≠ 'x' ∧ c ≠ 'X' := by
  have hb := isDigitC_toNat h
  constructor
  · exact char_ne_of_toNat_ne (by intro hc; rw [show ('x').toNat = 120 from rfl] at hc; omega)
  · exact char_ne_of_toNat_ne (by intro hc; rw [show ('X').toNat = 88 from rfl] at hc; omega)

lemma isDigitC_ne_i {c : Char} (h : isDigitC c = true) : c ≠ 'i' ∧ c ≠ 'n' := by
  have hb := isDigitC_toNat h
  constructor
  · exact char_ne_of_toNat_ne (by intro hc; rw [show ('i').toNat = 105 from rfl] at hc; omega)
  · exact char_ne_of_toNat_ne (by intro hc; rw [show ('n').toNat = 110 from rfl] at hc; omega)

lemma isDigitC_ne_nul {c : Char} (h : isDigitC c = true) : c ≠ nulChar := by
  have hb := isDigitC_toNat h
  exact char_ne_of_toNat_ne (by intro hc; rw [show nulChar.toNat = 0 from rfl] at hc; omega)

lemma digitChar_isDigit {k : Nat} (h : k < 10) : isDigitC (digitChar k) = true := by
  interval_cases k <;> decide

lemma digitChar_toNat {k : Nat} (h : k < 10) : (digitChar k).toNat = 48 + k := by
  interval_cases k <;> decide

lemma takeWhile_all {p : Char → Bool} {l : List Char} (h : ∀ c ∈ l, p c = true) :
    l.takeWhile p = l :=
  List.takeWhile_eq_self_iff.mpr h

lemma dropWhile_all {p : Char → Bool} {l : List Char} (h : ∀ c ∈ l, p c = true) :
    l.dropWhile p = [] :=
  List.dropWhile_eq_nil_iff.mpr h

lemma dropWhile_head_false {p : Char → Bool} {c : Char} {t : List Char} (h : p c = false) :
    (c :: t).dropWhile p = c :: t := by
  simp [List.dropWhile_cons, h]

lemma bufWrite_append {b : List Char} {c : Char} : bufWrite b b.length c = b ++ [c] := by
  simp [bufWrite]

lemma bufWriteSeq_overwrite :
    ∀ (cs b : List Char) (k : Nat), k ≤ b.length →
      bufWriteSeq b k cs = b.take k ++ cs ++ b.drop (k + cs.length) := by
  intro cs
  induction cs with
  | nil => intro b k hk; simp [bufWriteSeq]
  | cons c t ih =>
    intro b k hk
    rcases Nat.lt_or_eq_of_le hk with hlt | heq
    · have hset : b.set k c = b.take k ++ c :: b.drop (k + 1) :=
        List.set_eq_take_cons_drop c hlt
      have hxs : (b.take k).length = k := by simp; omega
      have hk2 : k + 1 ≤ (b.set k c).length := by simp; omega
      have h1 : (b.take k ++ c :: b.drop (k + 1)).take (k + 1) = b.take k ++ [c] := by
        rw [show b.take k ++ c :: b.drop (k + 1) = (b.take k ++ [c]) ++ b.drop (k + 1) by simp]
        exact List.take_left' (by simp [hxs])
      have h2 : (b.take k ++ c :: b.drop (k + 1)).drop (k + 1 + t.length) =
          b.drop (k + (t.length + 1)) := by
        rw [show b.take k ++ c :: b.drop (k + 1) = (b.take k ++ [c]) ++ b.drop (k + 1) by simp]
        rw [show k + 1 + t.length = (b.take k ++ [c]).length + t.length by simp [hxs]]
        rw [Eq.symm (List.drop_drop t.length (b.take k ++ [c]).length _)]
        rw [List.drop_left, List.drop_drop]
        congr 1
        omega
      calc bufWriteSeq b k (c :: t)
          = bufWriteSeq (b.set k c) (k + 1) t := by
            simp [bufWriteSeq, bufWrite, hlt]
        _ = (b.set k c).take (k + 1) ++ t ++ (b.set k c).drop (k + 1 + t.length) := ih _ _ hk2
        _ = b.take k ++ (c :: t) ++ b.drop (k + (c :: t).length) := by
            rw [hset, h1, h2]
            simp
    · have hb : bufWrite b k c = b ++ [c] := by rw [heq]; exact bufWrite_append
      have hk2 : k + 1 ≤ (b ++ [c]).length := by simp; omega
      calc bufWriteSeq b k (c :: t)
          = bufWriteSeq (b ++ [c]) (k + 1) t := by simp [bufWriteSeq, hb]
        _ = (b ++ [c]).take (k + 1) ++ t ++ (b ++ [c]).drop (k + 1 + t.length) := ih _ _ hk2
        _ = b.take k ++ (c :: t) ++ b.drop (k + (c :: t).length) := by
            rw [List.take_of_length_le (by simp; omega),
                List.drop_of_length_le (by simp; omega),
                List.take_of_length_le (by omega),
                List.drop_of_length_le (by omega)]
            simp

lemma bufWriteSeq_append {b cs : List Char} : bufWriteSeq b b.length cs = b ++ cs := by
  rw [bufWriteSeq_overwrite cs b b.length (Nat.le_refl _)]
  simp

lemma bufWriteSeq_zero {b cs : List Char} : bufWriteSeq b 0 cs = cs ++ b.drop cs.length := by
  rw [bufWriteSeq_overwrite cs b 0 (Nat.zero_le _)]
  simp

lemma scanChar_plain_dash_true {st : ScanState} {c : Char} (hs : isSpaceC c = false)
    (hd : c ≠ '-') (h : st.dash = true) :
    scanChar st c = { st with endBuf := bufWrite st.endBuf st.counter c,
                              counter := st.counter + 1,
                              writes := st.writes ++ [st.counter] } := by
  simp [scanChar, hs, hd, h]

lemma scanChar_plain_dash_false {st : ScanState} {c : Char} (hs : isSpaceC c = false)
    (hd : c ≠ '-') (h : st.dash = false) :
    scanChar st c = { st with beginBuf := bufWrite st.beginBuf st.counter c,
                              counter := st.counter + 1,
                              writes := st.writes ++ [st.counter] } := by
  simp [scanChar, hs, hd, h]

lemma scan_plain_dash_true :
    ∀ (cs : List Char) (st : ScanState),
      (∀ c ∈ cs, isSpaceC c = false ∧ c ≠ '-') → st.dash = true →
      (cs.foldl scanChar st).beginBuf = st.beginBuf ∧
      (cs.foldl scanChar st).endBuf = bufWriteSeq st.endBuf st.counter cs ∧
      (cs.foldl scanChar st).counter = st.counter + cs.length ∧
      (cs.foldl scanChar st).dash = true := by
  intro cs
  induction cs with
  | nil =>
    intro st _ hd
    exact ⟨rfl, rfl, rfl, hd⟩
  | cons c t ih =>
    intro st h hd
    have hc := h c (by simp)
    have ht : ∀ x ∈ t, isSpaceC x = false ∧ x ≠ '-' := fun x hx => h x (by simp [hx])
    rw [List.foldl_cons, scanChar_plain_dash_true hc.1 hc.2 hd]
    obtain ⟨h1, h2, h3, h4⟩ :=
      ih { st with endBuf := bufWrite st.endBuf st.counter c,
                   counter := st.counter + 1,
                   writes := st.writes ++ [st.counter] } ht hd
    refine ⟨h1, ?_, ?_, h4⟩
    · rw [h2]; rfl
    · rw [h3]; simp; omega

lemma scan_plain_dash_false :
    ∀ (cs : List Char) (st : ScanState),
      (∀ c ∈ cs, isSpaceC c = false ∧ c ≠ '-') → st.dash = false →
      (cs.foldl scanChar st).beginBuf = bufWriteSeq st.beginBuf st.counter cs ∧
      (cs.foldl scanChar st).endBuf = st.endBuf ∧
      (cs.foldl scanChar st).counter = st.counter + cs.length ∧
      (cs.foldl scanChar st).dash = false := by
  intro cs
  induction cs with
  | nil =>
    intro st _ hd
    exact ⟨rfl, rfl, rfl, hd⟩
  | cons c t ih =>
    intro st h hd
    have hc := h c (by simp)
    have ht : ∀ x ∈ t, isSpaceC x = false ∧ x ≠ '-' := fun x hx => h x (by simp [hx])
    rw [List.foldl_cons, scanChar_plain_dash_false hc.1 hc.2 hd]
    obtain ⟨h1, h2, h3, h4⟩ :=
      ih { st with beginBuf := bufWrite st.beginBuf st.counter c,
                   counter := st.counter + 1,
                   writes := st.writes ++ [st.counter] } ht hd
    refine ⟨?_, h2, ?_, h4⟩
    · rw [h1]; rfl
    · rw [h3]; simp; omega

lemma natDigitsAux_mem :
    ∀ (fuel n : Nat) (c : Char), c ∈ natDigitsAux fuel n → ∃ k, k < 10 ∧ c = digitChar k := by
  intro fuel
  induction fuel with
  | zero => intro n c hc; simp [natDigitsAux] at hc
  | succ f ih =>
    intro n c hc
    rw [natDigitsAux] at hc
    by_cases hn : n < 10
    · rw [if_pos hn] at hc
      simp at hc
      exact ⟨n, hn, hc⟩
    · rw [if_neg hn] at hc
      rcases List.mem_append.mp hc with h | h
      · exact ih _ _ h
      · simp at h
        exact ⟨n % 10, Nat.mod_lt _ (by omega), h⟩

lemma natDecimal_digit {n : Nat} {c : Char} (hc : c ∈ natDecimal n) : isDigitC c = true := by
  obtain ⟨k, hk, rfl⟩ := natDigitsAux_mem _ _ _ hc
  exact digitChar_isDigit hk

lemma natDigitsAux_ne_nil {f n : Nat} : natDigitsAux (f + 1) n ≠ [] := by
  rw [natDigitsAux]
  by_cases hn : n < 10
  · rw [if_pos hn]; simp
  · rw [if_neg hn]; simp

lemma natDecimal_ne_nil {n : Nat} : natDecimal n ≠ [] := natDigitsAux_ne_nil

lemma foldl_digits_natDigitsAux :
    ∀ (fuel n : Nat), n < fuel →
      (natDigitsAux fuel n).foldl (fun a c => a * 10 + ((c.toNat : Int) - 48)) 0 = (n : Int) := by
  intro fuel
  induction fuel with
  | zero => intro n hn; omega
  | succ f ih =>
    intro n hn
    rw [natDigitsAux]
    by_cases h10 : n < 10
    · rw [if_pos h10]
      simp [digitChar_toNat h10]
    · rw [if_neg h10]
      rw [List.foldl_append]
      have hdiv : n / 10 < f := by
        have := Nat.div_lt_self (by omega : 0 < n) (by omega : 1 < 10)
        omega
      rw [ih _ hdiv]
      simp [digitChar_toNat (Nat.mod_lt n (by omega) : n % 10 < 10)]
      have hmod : ((n % 10 : Nat) : Int) = (n : Int) - (n / 10 : Nat) * 10 := by
        push_cast
        omega
      omega

lemma atoi_natDecimal (n : Nat) : atoi (natDecimal n) = (n : Int) := by
  have hdig : ∀ c ∈ natDecimal n, isDigitC c = true := fun c hc => natDecimal_digit hc
  have hnospace : natDecimal n = (natDecimal n).dropWhile isSpaceC := by
    cases hl : natDecimal n with
    | nil => rfl
    | cons c t =>
      have hc : isDigitC c = true := by
        apply hdig; rw [hl]; simp
      rw [dropWhile_head_false (isDigitC_not_space hc)]
  rw [atoi, ← hnospace]
  cases hl : natDecimal n with
  | nil => exact absurd hl natDecimal_ne_nil
  | cons c t =>
    have hc : isDigitC c = true := by apply hdig; rw [hl]; simp
    change (if c = '+' then atoiDigits t else if c = '-' then -atoiDigits t
      else atoiDigits (c :: t)) = (n : Int)
    rw [if_neg (isDigitC_ne_plus hc), if_neg (isDigitC_ne_dash hc)]
    rw [atoiDigits, takeWhile_all (by intro x hx; apply hdig; rw [hl]; exact hx)]
    rw [← hl]
    exact foldl_digits_natDigitsAux (n + 1) n (by omega)

lemma isNumeric_digits {l : List Char} (hne : l ≠ []) (hdig : ∀ c ∈ l, isDigitC c = true) :
    isNumeric l = true := by
  cases l with
  | nil => exact absurd rfl hne
  | cons c t =>
    have hc : isDigitC c = true := hdig c (by simp)
    rw [isNumeric]
    have hs : isSpaceC c = false := isDigitC_not_space hc
    rw [hs]
    simp only [Bool.not_false, Bool.true_and]
    rw [strtodFull]
    have hdrop : (c :: t).dropWhile isSpaceC = c :: t := dropWhile_head_false hs
    rw [hdrop]
    have hstrip : stripSignOpt (c :: t) = c :: t := by
      rw [stripSignOpt]
      rw [if_neg]
      push_neg
      exact ⟨isDigitC_ne_plus hc, isDigitC_ne_dash hc⟩
    rw [hstrip]
    have hlow : (c :: t).map Char.toLower = c :: t := by
      apply List.map_congr_left ?_ |>.trans (List.map_id _)
      intro x hx
      exact isDigitC_toLower (hdig x hx)
    rw [hlow]
    rw [if_neg, if_neg]
    · have hbody : strtodBody (c :: t) = decTail (c :: t) := by
        cases t with
        | nil => rfl
        | cons c1 t2 =>
          rw [strtodBody, if_neg]
          intro hcontra
          have hx := isDigitC_ne_x (hdig c1 (by simp))
          rcases hcontra.2 with h | h
          · exact hx.1 h
          · exact hx.2 h
      rw [hbody, decTail]
      rw [takeWhile_all hdig, dropWhile_all hdig]
      simp [expTail]
    · intro hcontra
      have : c = 'n' := by
        have h3 : (c :: t).take 3 = c :: t.take 2 := by simp
        rw [h3] at hcontra
        exact (List.cons.injEq _ _ _ _).mp hcontra |>.1
      exact (isDigitC_ne_i hc).2 this
    · intro hcontra
      rcases hcontra with h | h
      · have : c = 'i' := ((List.cons.injEq _ _ _ _).mp h).1
        exact (isDigitC_ne_i hc).1 this
      · have : c = 'i' := ((List.cons.injEq _ _ _ _).mp h).1
        exact (isDigitC_ne_i hc).1 this

lemma scan_fallbackSeg {N : Int} :
    (scanSegment (fallbackSeg N)).beginBuf = ['1'] ∧
    (scanSegment (fallbackSeg N)).endBuf = natDecimal N.toNat ∧
    (scanSegment (fallbackSeg N)).dash = true := by
  have hst1 : scanChar initScan '1' = ⟨['1'], [], 1, false, [0]⟩ := by decide
  have hst2 : scanChar ⟨['1'], [], 1, false, [0]⟩ '-' = ⟨['1'], [], 0, true, [0]⟩ := by decide
  have hplain : ∀ c ∈ natDecimal N.toNat, isSpaceC c = false ∧ c ≠ '-' := by
    intro c hc
    have hd := natDecimal_digit hc
    exact ⟨isDigitC_not_space hd, isDigitC_ne_dash hd⟩
  obtain ⟨h1, h2, _, h4⟩ :=
    scan_plain_dash_true (natDecimal N.toNat) ⟨['1'], [], 0, true, [0]⟩ hplain rfl
  rw [scanSegment, fallbackSeg, List.foldl_cons, hst1, List.foldl_cons, hst2]
  refine ⟨h1, ?_, h4⟩
  rw [h2]
  change bufWriteSeq [] 0 (natDecimal N.toNat) = _
  rw [bufWriteSeq_zero]
  simp

lemma beginTokenOf_fallbackSeg {N : Int} : beginTokenOf (fallbackSeg N) = ['1'] := by
  rw [beginTokenOf, scan_fallbackSeg.1]
  decide

lemma endTokenOf_fallbackSeg {N : Int} : endTokenOf (fallbackSeg N) = natDecimal N.toNat := by
  rw [endTokenOf, if_pos scan_fallbackSeg.2.2, scan_fallbackSeg.2.1]
  apply takeWhile_all
  intro c hc
  have := isDigitC_ne_nul (natDecimal_digit hc)
  simp [this]

lemma order_pdf_pages_fallback {N : Int} (hN : 1 ≤ N) (acc : List Int) :
    order_pdf_pages N acc (fallbackSeg N) = some (acc ++ intRangeAsc 1 N) := by
  have hbtok := beginTokenOf_fallbackSeg (N := N)
  have hetok := endTokenOf_fallbackSeg (N := N)
  have hnum2 : isNumeric (natDecimal N.toNat) = true :=
    isNumeric_digits natDecimal_ne_nil (fun c hc => natDecimal_digit hc)
  have hatoi2 : atoi (natDecimal N.toNat) = N := by
    rw [atoi_natDecimal]
    exact Int.toNat_of_nonneg (by omega)
  rw [order_pdf_pages, hbtok, hetok, hnum2]
  rw [show isNumeric ['1'] = true from by decide]
  rw [show atoi ['1'] = 1 from by decide]
  rw [hatoi2, if_neg (by omega : ¬N = 0)]
  rw [pageRangeAppend]
  rw [if_pos (show (0 : Int) < 1 ∧ 0 < N from ⟨by omega, by omega⟩)]
  rw [if_pos (show (1 : Int) ≤ N ∧ N ≤ N from ⟨hN, le_refl N⟩)]
  rw [if_pos hN]
  rw [if_neg (lt_irrefl N)]
  simp

lemma intRangeAsc_length {b e : Int} : (intRangeAsc b e).length = (e + 1 - b).toNat := by
  rw [intRangeAsc, List.length_map, List.length_range]

lemma intRangeDesc_length {b e : Int} : (intRangeDesc b e).length = (b + 1 - e).toNat := by
  rw [intRangeDesc, List.length_map, List.length_range]

lemma pageRangeAppend_length {N : Int} {acc out : List Int} {nb ne : Int}
    (h : pageRangeAppend N acc nb ne = some out) : out.length ≤ acc.length + N.toNat := by
  rw [pageRangeAppend] at h
  by_cases h1 : 0 < nb ∧ 0 < ne
  · rw [if_pos h1] at h
    by_cases h2 : nb ≤ N ∧ ne ≤ N
    · rw [if_pos h2] at h
      by_cases h3 : nb ≤ ne
      · rw [if_pos h3, if_neg (show ¬N < ne by omega)] at h
        cases h
        simp [intRangeAsc_length]
        omega
      · rw [if_neg h3, if_neg (show ¬N < nb by omega)] at h
        cases h
        simp [intRangeDesc_length]
        omega
    · rw [if_neg h2] at h
      cases h
  · rw [if_neg h1] at h
    cases h

lemma order_pdf_pages_length {N : Int} {acc out : List Int} {seg : List Char}
    (h : order_pdf_pages N acc seg = some out) : out.length ≤ acc.length + N.toNat := by
  rw [order_pdf_pages] at h
  by_cases hg : (isNumeric (beginTokenOf seg) && isNumeric (endTokenOf seg)) = true
  · rw [if_pos hg] at h
    exact pageRangeAppend_length h
  · rw [if_neg hg] at h
    cases h

lemma resolveSegs_length {N : Int} :
    ∀ (segs : List (List Char)) (acc : List Int),
      (resolveSegs N segs acc).length ≤ acc.length + (segs.length + 1) * N.toNat := by
  intro segs
  induction segs with
  | nil =>
    intro acc
    rw [resolveSegs]
    simp
  | cons s rest ih =>
    intro acc
    rw [resolveSegs]
    cases hh : order_pdf_pages N acc s with
    | some a2 =>
      have hl := order_pdf_pages_length hh
      have := ih a2
      have hexp : (rest.length + 1 + 1) * N.toNat = (rest.length + 1) * N.toNat + N.toNat := by
        ring
      simp only [List.length_cons]
      omega
    | none =>
      cases hf : order_pdf_pages N acc (fallbackSeg N) with
      | some a2 =>
        have hl := order_pdf_pages_length hf
        have hmul : N.toNat ≤ (rest.length + 1 + 1) * N.toNat :=
          Nat.le_mul_of_pos_left _ (by omega)
        simp only [List.length_cons]
        omega
      | none =>
        simp only [List.length_cons]
        omega

lemma resolveSegs_of_parseAll {N : Int} :
    ∀ (pre : List (List Char)) (acc0 acc : List Int) (rest : List (List Char)),
      parseAll N pre acc0 = some acc →
      resolveSegs N (pre ++ rest) acc0 = resolveSegs N rest acc := by
  intro pre
  induction pre with
  | nil =>
    intro acc0 acc rest h
    rw [parseAll] at h
    cases h
    rfl
  | cons s t ih =>
    intro acc0 acc rest h
    rw [parseAll] at h
    cases hh : order_pdf_pages N acc0 s with
    | some a2 =>
      rw [hh] at h
      rw [List.cons_append, resolveSegs, hh]
      exact ih a2 acc rest h
    | none =>
      rw [hh] at h
      cases h

lemma sendLoopCalls_fst {tx : Int → Bool} :
    ∀ pages : List Int,
      (sendLoopCalls tx pages).1 =
        (pages.takeWhile tx ++ (pages.dropWhile tx).take 1).map
          (fun p => TxCall.mk (some p) false) := by
  intro pages
  induction pages with
  | nil => simp [sendLoopCalls]
  | cons p rest ih =>
    cases rest with
    | nil =>
      cases hp : tx p <;> simp [sendLoopCalls, hp]
    | cons q r2 =>
      cases hp : tx p <;> simp [sendLoopCalls, hp, ih]

lemma markerCount_append {a b : List TxCall} :
    markerCount (a ++ b) = markerCount a + markerCount b := by
  simp [markerCount, List.filter_append]

lemma markerCount_eq_zero {l : List TxCall} (h : ∀ c ∈ l, c.content ≠ none) :
    markerCount l = 0 := by
  rw [markerCount]
  have hf : (l.filter fun c => decide (c.content = none ∧ c.lastPage = true)) = [] := by
    apply List.filter_eq_nil_iff.mpr
    intro c hc
    simp [h c hc]
  rw [hf]
  rfl

lemma markerCount_sendLoopCalls {tx : Int → Bool} :
    ∀ pages : List Int, markerCount (sendLoopCalls tx pages).1 = 0 := by
  intro pages
  rw [sendLoopCalls_fst pages]
  apply markerCount_eq_zero
  intro c hc
  obtain ⟨p, _, rfl⟩ := List.mem_map.mp hc
  simp

lemma markerCount_print_pdf_pages {faceDown : Bool} {tx : Int → Bool} {pages : List Int} :
    markerCount (print_pdf_pages faceDown tx pages).1 = 0 := by
  rw [print_pdf_pages]
  cases faceDown
  · simp only [if_neg Bool.false_ne_true]
    exact markerCount_sendLoopCalls _
  · simp only [if_pos rfl]
    exact markerCount_sendLoopCalls _

lemma markerCount_runDocs {faceDown : Bool} {tx : Int → Bool} :
    ∀ docs : List (List Int), markerCount (runDocs faceDown tx docs).1 = 0 := by
  intro docs
  induction docs with
  | nil => rfl
  | cons d rest ih =>
    rw [runDocs]
    cases hr : (print_pdf_pages faceDown tx d).2 with
    | true =>
      change markerCount ((print_pdf_pages faceDown tx d).1 ++ (runDocs faceDown tx rest).1) = 0
      rw [markerCount_append, markerCount_print_pdf_pages, ih]
    | false =>
      change markerCount (print_pdf_pages faceDown tx d).1 = 0
      exact markerCount_print_pdf_pages

/-- C3: for one document the Page-Order Composer transmits the resolved list in its
given order when the tray is face-down and in reverse order when face-up, in both
cases stopping right after the first non-success transmitter result (the sent
pages are the successful prefix plus the first failing page, each with
last-page=false); across documents, a 3-document face-up job visits document
indices in the order [2, 1, 0]. -/
theorem c3_transmission_order :
    (∀ (tx : Int → Bool) (pages : List Int),
       (print_pdf_pages true tx pages).1 =
         (pages.takeWhile tx ++ (pages.dropWhile tx).take 1).map
           (fun p => TxCall.mk (some p) false)) ∧
    (∀ (tx : Int → Bool) (pages : List Int),
       (print_pdf_pages false tx pages).1 =
         (pages.reverse.takeWhile tx ++ (pages.reverse.dropWhile tx).take 1).map
           (fun p => TxCall.mk (some p) false)) ∧
    documentOrder false 3 = [2, 1, 0] := by
  refine ⟨?_, ?_, by decide⟩
  · intro tx pages
    rw [print_pdf_pages, if_pos rfl]
    exact sendLoopCalls_fst pages
  · intro tx pages
    rw [print_pdf_pages, if_neg Bool.false_ne_true]
    exact sendLoopCalls_fst pages.reverse

/-- C4: the Scaling Policy Selector writes "none" for raster (non-PDF-passthrough)
formats when "none" is supported and the empty string otherwise; for
PDF-passthrough with neither the photo/shared-photo condition nor
preserve-scaling set it writes "auto" when supported, else the printer's
non-empty advertised default, else "fit". -/
theorem c4_scaling_policy :
    (∀ (cat : String) (sp ps : Bool) (supported : List String) (dflt : String),
       selectPrintScaling false cat sp ps supported dflt =
         (if supported.contains "none" then "none" else "")) ∧
    (∀ (cat : String) (sp ps : Bool) (supported : List String) (dflt : String),
       ((strcaseEq cat "Photo" && sp) || ps) = false →
       selectPrintScaling true cat sp ps supported dflt =
         (if supported.contains "auto" then "auto" else if dflt ≠ "" then dflt else "fit")) := by
  constructor
  · intro cat sp ps supported dflt
    rfl
  · intro cat sp ps supported dflt h
    simp only [selectPrintScaling, if_pos rfl]
    have hfalse : ¬((strcaseEq cat "Photo" && sp || ps) = true) := by simp [h]
    rw [if_neg hfalse]
    simp

theorem c4_witness :
    ((strcaseEq "Document" "Photo" && false) || false) = false ∧
    selectPrintScaling true "Document" false false ["auto"] "" = "auto" := by
  have h := c4_scaling_policy.2 "Document" false false ["auto"] "" (by decide)
  refine ⟨by decide, ?_⟩
  rw [h]
  decide

/-- C5: with exactly one input document, duplex is forced to the off value when the
document is not PDF-passthrough, or when it is PDF and its resolved page count
(the length of the resolved page list) is exactly 1; with 2 or more resolved
pages the configured duplex mode is kept. -/
theorem c5_smart_duplex :
    ∀ (α : Type) (duplexNone configured : α) (N : Int) (expr : String),
      smartDuplexParams 1 false ((get_pdf_page_range N expr).length : Int)
          duplexNone configured = duplexNone ∧
      ((get_pdf_page_range N expr).length = 1 →
        smartDuplexParams 1 true ((get_pdf_page_range N expr).length : Int)
          duplexNone configured = duplexNone) ∧
      (2 ≤ (get_pdf_page_range N expr).length →
        smartDuplexParams 1 true ((get_pdf_page_range N expr).length : Int)
          duplexNone configured = configured) := by
  intro α dn cfg N expr
  refine ⟨rfl, ?_, ?_⟩
  · intro h
    rw [h]
    rfl
  · intro h
    have hne : ((get_pdf_page_range N expr).length : Int) ≠ 1 := by omega
    show (if ((get_pdf_page_range N expr).length : Int) = 1 then dn else cfg) = cfg
    rw [if_neg hne]

theorem c5_witness :
    (get_pdf_page_range 3 "2").length = 1 ∧
    smartDuplexParams 1 true ((get_pdf_page_range 3 "2").length : Int) (0 : Int) 1 = 0 ∧
    2 ≤ (get_pdf_page_range 3 "").length ∧
    smartDuplexParams 1 true ((get_pdf_page_range 3 "").length : Int) (0 : Int) 1 = 1 :=
  ⟨by decide, (c5_smart_duplex Int 0 1 3 "2").2.1 (by decide), by decide,
    (c5_smart_duplex Int 0 1 3 "").2.2 (by decide)⟩

/-- C6: the dispatcher selects the failed reason table and its bound exactly when
the state is Done with outcome Error or Corrupt; every other combination —
including Done with BadCertificate or Cancelled, and the non-terminal Blocked
state — selects the blocked reason table and its bound, so a Done/Error
notification's reason symbols are drawn from the failed table. -/
theorem c6_failed_table_selection :
    (∀ (s : JobState) (r : JobDoneResult),
       selectReasonTable s r = ReasonTable.failed ↔
         s = JobState.done ∧ (r = JobDoneResult.error ∨ r = JobDoneResult.corrupt)) ∧
    (∀ (failedBound blockedBound : Nat) (s : JobState) (r : JobDoneResult),
       selectReasonBound failedBound blockedBound s r =
         (if selectReasonTable s r = ReasonTable.failed then failedBound else blockedBound)) ∧
    selectReasonTable JobState.done JobDoneResult.error = ReasonTable.failed ∧
    selectReasonTable JobState.done JobDoneResult.badCertificate = ReasonTable.blocked ∧
    selectReasonTable JobState.done JobDoneResult.cancelled = ReasonTable.blocked ∧
    (∀ r, selectReasonTable JobState.blocked r = ReasonTable.blocked) := by
  refine ⟨?_, ?_, by decide, by decide, by decide, ?_⟩
  · intro s r
    cases s <;> cases r <;> decide
  · intro fb bb s r
    cases s <;> cases r <;> rfl
  · intro r
    cases r <;> rfl

/-- C7 (amended): exactly one synthetic end-of-document marker call (NULL content,
is-last-page true) is issued per job, after the document loop — not one per
document. -/
theorem c7_one_marker_per_job :
    ∀ (faceDown : Bool) (tx : Int → Bool) (docs : List (List Int)),
      markerCount (nativeJobCalls faceDown tx docs) = 1 := by
  intro fd tx docs
  rw [nativeJobCalls, markerCount_append, markerCount_runDocs]
  rfl

theorem c7_counterexample :
    markerCount (nativeJobCalls true (fun _ => true) [[1], [1]]) = 1 ∧
    ([[1], [1]] : List (List Int)).length = 2 ∧
    markerCount (nativeJobCalls true (fun _ => true) [[1], [1]]) ≠
      ([[1], [1]] : List (List Int)).length := by
  refine ⟨by decide, by decide, by decide⟩

/-- C9 (code-bug evaluation): the token scan loop has no bound on the write index;
on the segment "123456" it writes the buffer cells 0..5, so the write at index 5
falls outside the 5-byte token array (and already the write at index 4 destroys
the NUL terminator) — nothing is truncated by construction. -/
theorem c9_token_buffer_overflow_eval :
    (scanSegment ("123456".data)).writes = [0, 1, 2, 3, 4, 5] ∧
    ¬(∀ i ∈ (scanSegment ("123456".data)).writes, i < 5) := by
  constructor
  · decide
  · decide

lemma scanChar_dash (st : ScanState) : scanChar st '-' = { st with dash := true, counter := 0 } := by
  have h : isSpaceC '-' = false := by decide
  simp [scanChar, h]

/-- C2: a segment whose two tokens are numeric, with parsed begin b and end e (after
the end=0 single-page substitution) satisfying 1 <= b, e <= N, appends b..e in
ascending order when e >= b and b down to e in descending order when e < b;
segments of one expression concatenate in order, so "2-5,1" with N = 5 resolves to
[2,3,4,5,1] and "3-1" with N >= 3 resolves to [3,2,1]. -/
theorem c2_valid_segment_ranges :
    (∀ (N : Int) (acc : List Int) (seg : List Char) (b e : Int),
       isNumeric (beginTokenOf seg) = true →
       isNumeric (endTokenOf seg) = true →
       atoi (beginTokenOf seg) = b →
       (if atoi (endTokenOf seg) = 0 then atoi (beginTokenOf seg)
        else atoi (endTokenOf seg)) = e →
       1 ≤ b → b ≤ N → 1 ≤ e → e ≤ N →
       order_pdf_pages N acc seg =
         some (acc ++ (if b ≤ e then intRangeAsc b e else intRangeDesc b e))) ∧
    get_pdf_page_range 5 "2-5,1" = [2, 3, 4, 5, 1] ∧
    (∀ N : Int, 3 ≤ N → get_pdf_page_range N "3-1" = [3, 2, 1]) := by
  refine ⟨?_, by decide, ?_⟩
  · intro N acc seg b e h1 h2 hb he hb1 hbN he1 heN
    rw [order_pdf_pages, h1, h2, if_pos (show (true && true) = true from rfl), he, hb]
    rw [pageRangeAppend]
    rw [if_pos (show 0 < b ∧ 0 < e from ⟨by omega, by omega⟩)]
    rw [if_pos (show b ≤ N ∧ e ≤ N from ⟨hbN, heN⟩)]
    by_cases hbe : b ≤ e
    · rw [if_pos hbe, if_neg (show ¬N < e by omega), if_pos hbe]
    · rw [if_neg hbe, if_neg (show ¬N < b by omega), if_neg hbe]
  · intro N hN
    rw [get_pdf_page_range, effectiveList]
    rw [if_neg (show ¬("3-1".data = []) from by decide)]
    rw [show strtokSplit "3-1".data = [['3', '-', '1']] from by decide]
    rw [resolveSegs]
    have hord : order_pdf_pages N [] ['3', '-', '1'] = some [3, 2, 1] := by
      rw [order_pdf_pages]
      rw [show beginTokenOf ['3', '-', '1'] = ['3'] from by decide]
      rw [show endTokenOf ['3', '-', '1'] = ['1'] from by decide]
      rw [show isNumeric ['3'] = true from by decide]
      rw [show isNumeric ['1'] = true from by decide]
      rw [if_pos (show (true && true) = true from rfl)]
      rw [show atoi ['3'] = 3 from by decide]
      rw [show atoi ['1'] = 1 from by decide]
      rw [if_neg (show ¬(1 : Int) = 0 from by decide)]
      rw [pageRangeAppend]
      rw [if_pos (show (0 : Int) < 3 ∧ (0 : Int) < 1 from by decide)]
      rw [if_pos (show (3 : Int) ≤ N ∧ (1 : Int) ≤ N from ⟨hN, by omega⟩)]
      rw [if_neg (show ¬(3 : Int) ≤ 1 from by decide)]
      rw [if_neg (show ¬N < 3 by omega)]
      rw [show intRangeDesc 3 1 = [3, 2, 1] from by decide]
      rfl
    rw [hord]
    rfl

theorem c2_witness :
    order_pdf_pages 9 [7] ['4', '-', '2'] =
      some ([7] ++ (if (4 : Int) ≤ 2 then intRangeAsc 4 2 else intRangeDesc 4 2)) ∧
    get_pdf_page_range 3 "3-1" = [3, 2, 1] :=
  ⟨c2_valid_segment_ranges.1 9 [7] ['4', '-', '2'] 4 2 (by decide) (by decide) (by decide)
      (by decide) (by decide) (by decide) (by decide) (by decide),
    c2_valid_segment_ranges.2.2 3 (by decide)⟩

/-- C8 (amended): only the first '-' of a segment switches accumulation from the
begin token to the end token (the begin buffer is exactly the dash-free text
before the first dash), but every dash — including later ones — also resets the
shared write counter to 0, so characters after a second dash overwrite the end
token from its start instead of extending it: the end buffer ends up as the last
chunk overlaid on the previous one, and for "1-2-3" the end token is "3", not
"23". -/
theorem c8_dash_resets_end_token :
    (∀ (u v w : List Char),
       (∀ c ∈ u, isSpaceC c = false ∧ c ≠ '-') →
       (∀ c ∈ v, isSpaceC c = false ∧ c ≠ '-') →
       (∀ c ∈ w, isSpaceC c = false ∧ c ≠ '-') →
       (scanSegment (u ++ '-' :: v ++ '-' :: w)).beginBuf = u ∧
       (scanSegment (u ++ '-' :: v ++ '-' :: w)).endBuf = w ++ v.drop w.length) ∧
    endTokenOf ("1-2-3".data) = ['3'] := by
  refine ⟨?_, by decide⟩
  intro u v w hu hv hw
  rw [scanSegment, List.foldl_append, List.foldl_cons, scanChar_dash, List.foldl_append,
      List.foldl_cons, scanChar_dash]
  obtain ⟨ha1, ha2, ha3, ha4⟩ := scan_plain_dash_false u initScan hu rfl
  obtain ⟨hb1, hb2, hb3, hb4⟩ :=
    scan_plain_dash_true v { u.foldl scanChar initScan with dash := true, counter := 0 } hv rfl
  obtain ⟨hc1, hc2, hc3, hc4⟩ :=
    scan_plain_dash_true w
      { v.foldl scanChar { u.foldl scanChar initScan with dash := true, counter := 0 } with
          dash := true, counter := 0 } hw rfl
  constructor
  · rw [hc1]
    show (v.foldl scanChar { u.foldl scanChar initScan with
      dash := true, counter := 0 }).beginBuf = u
    rw [hb1]
    show (u.foldl scanChar initScan).beginBuf = u
    rw [ha1]
    show bufWriteSeq [] 0 u = u
    rw [bufWriteSeq_zero]
    simp
  · rw [hc2]
    show bufWriteSeq (v.foldl scanChar { u.foldl scanChar initScan with
      dash := true, counter := 0 }).endBuf 0 w = w ++ v.drop w.length
    rw [hb2]
    show bufWriteSeq (bufWriteSeq (u.foldl scanChar initScan).endBuf 0 v) 0 w =
      w ++ v.drop w.length
    rw [ha2]
    show bufWriteSeq (bufWriteSeq ([] : List Char) 0 v) 0 w = w ++ v.drop w.length
    have hin : bufWriteSeq ([] : List Char) 0 v = v := by
      rw [bufWriteSeq_zero]
      simp
    rw [hin, bufWriteSeq_zero]

theorem c8_witness :
    (scanSegment (['1'] ++ '-' :: ['2'] ++ '-' :: ['3'])).beginBuf = ['1'] ∧
    (scanSegment (['1'] ++ '-' :: ['2'] ++ '-' :: ['3'])).endBuf =
      ['3'] ++ (['2'] : List Char).drop (['3'] : List Char).length :=
  c8_dash_resets_end_token.1 ['1'] ['2'] ['3'] (by decide) (by decide) (by decide)

theorem c8_counterexample :
    endTokenOf ("1-2-3".data) = ['3'] ∧ (['3'] : List Char) ≠ ['2', '3'] :=
  ⟨by decide, by decide⟩

/-- C1 (amended): when a comma-separated segment fails to parse, the Page-Range
Resolver stops at that segment and appends the full fallback range 1..N after
the pages accumulated from the earlier successful segments — it does not discard
them (pages_ary and num_index are not reset), so the output equals exactly
[1..N] only when no pages were accumulated before the failure. -/
theorem c1_resolver_fallback_appends :
    ∀ (N : Int) (expr : String) (pre : List (List Char)) (seg : List Char)
      (post : List (List Char)) (acc : List Int),
      1 ≤ N →
      expr.data ≠ [] →
      strtokSplit expr.data = pre ++ seg :: post →
      parseAll N pre [] = some acc →
      order_pdf_pages N acc seg = none →
      get_pdf_page_range N expr = acc ++ intRangeAsc 1 N := by
  intro N expr pre seg post acc hN hne hsplit hpre hfail
  rw [get_pdf_page_range, effectiveList, if_neg hne, hsplit,
      resolveSegs_of_parseAll pre [] acc (seg :: post) hpre]
  rw [resolveSegs, hfail, order_pdf_pages_fallback hN acc]

theorem c1_witness :
    get_pdf_page_range 2 "1,0" = [1] ++ intRangeAsc 1 2 :=
  c1_resolver_fallback_appends 2 "1,0" [['1']] ['0'] [] [1] (by decide) (by decide)
    (by decide) (by decide) (by decide)

theorem c1_counterexample :
    order_pdf_pages 2 [1] ['0'] = none ∧
    get_pdf_page_range 2 "1,0" = [1, 1, 2] ∧
    intRangeAsc 1 2 = [1, 2] ∧
    get_pdf_page_range 2 "1,0" ≠ intRangeAsc 1 2 :=
  ⟨by decide, by decide, by decide, by decide⟩

/-- C10 (amended): the resolved page list of one document has length at most
(S + 1) * N, where S is the number of comma-separated segments of the effective
expression and N the page count — each successful segment appends at most N
pages, and the fallback appends at most N more after the accumulated pages; the
claimed bound of N alone does not hold. -/
theorem c10_resolved_length_bound :
    ∀ (N : Int) (expr : String),
      (get_pdf_page_range N expr).length ≤
        ((strtokSplit (effectiveList N expr)).length + 1) * N.toNat := by
  intro N expr
  rw [get_pdf_page_range]
  have h := resolveSegs_length (N := N) (strtokSplit (effectiveList N expr)) []
  simpa using h

theorem c10_counterexample :
    get_pdf_page_range 1 "1,1" = [1, 1] ∧
    ¬((get_pdf_page_range 1 "1,1").length ≤ (1 : Int).toNat) :=
  ⟨by decide, by decide⟩
